import Mathlib

/-!
# Verification of the AnimeHelper scroll-driven animation core

Shallow embedding of `src/AnimeHelper.js` (the scroll-trigger state machine,
bounds computation, pin/spacer lifecycle and the `seek` control), together
with theorems settling the frozen specification claims.

Modelling conventions:
* JS numbers are modelled as `ℚ`; a value that can be `NaN` (the result of a
  failed `parseFloat`, or arithmetic on such a value) is modelled as
  `Option ℚ`, with `none` playing the role of `NaN`.  JS comparisons with
  `NaN` are all false, and arithmetic propagates `NaN`, which the `Option`
  combinators below reproduce.
* CSS length strings such as `"0"` and `"200px"` are modelled by their pixel
  value (a `ℚ`) in the scroll-evaluation style record; the inline-style
  snapshot/restore model (`InlineStyle`) keeps raw strings, as the code
  restores them verbatim.
* DOM geometry (`getBoundingClientRect`) is an input: a `Rect` of
  viewport-relative `top`, `height`, `left`, `width`, with
  `bottom = top + height` as in the DOM.
-/

namespace AnimeHelper

/-! ## JS string primitives used by the source -/

/-- `String.prototype.split(" ")` on a list of characters: splits at every
single space, keeping empty chunks, and yields `[[]]` on the empty string. -/
def splitOnSpace : List Char → List (List Char)
  | [] => [[]]
  | c :: rest =>
    let r := splitOnSpace rest
    if c = ' ' then [] :: r
    else (c :: r.headD []) :: r.tail

/-- Numeric value of a digit run (most significant first). -/
def digitsToNat (cs : List Char) : ℕ :=
  cs.foldl (fun a c => 10 * a + (c.toNat - '0'.toNat)) 0

/-- Value of a fractional digit run: `fracValue ['2','5'] = 1/4`. -/
def fracValue (cs : List Char) : ℚ :=
  cs.foldr (fun c a => (((c.toNat - '0'.toNat : ℕ) : ℚ) + a) / 10) 0

/-- JS `parseFloat` on the inputs the source feeds it: an optional sign, then
a leading run of digits with an optional fractional part.  `none` models the
`NaN` result when no number can be parsed (e.g. `parseFloat("-=200")`,
`parseFloat("top")`, `parseFloat(undefined)`); a trailing non-numeric suffix
is ignored (`parseFloat("50%") = 50`). -/
def parseFloatJS (cs : List Char) : Option ℚ :=
  let sign : ℚ := if cs.head? = some '-' then -1 else 1
  let rest := if cs.head? = some '-' ∨ cs.head? = some '+' then cs.tail else cs
  let intPart := rest.takeWhile Char.isDigit
  let rest2 := rest.dropWhile Char.isDigit
  let fracPart :=
    if rest2.head? = some '.' then rest2.tail.takeWhile Char.isDigit else []
  if intPart = [] ∧ fracPart = [] then none
  else some (sign * ((digitsToNat intPart : ℚ) + fracValue fracPart))

/-! ## Geometry: `_calculateScrollBounds` and the pin spacer resize -/

/-- A `getBoundingClientRect` result (viewport-relative, `bottom` derived). -/
structure Rect where
  top : ℚ
  height : ℚ
  left : ℚ
  width : ℚ
deriving DecidableEq

def Rect.bottom (r : Rect) : ℚ := r.top + r.height

/-- The `parsePos` closure inside `_calculateScrollBounds`: resolves a
`"<elementEdge> <viewportEdge>"` spec against a rect, the current scroll
offset and the viewport height.  `none` models a `NaN` result (unparseable
edge, or missing viewport edge, since `parseFloat(undefined)` is `NaN`). -/
def parsePos (posStr : String) (elRect : Rect) (scrollY wh : ℚ) : Option ℚ :=
  let parts := splitOnSpace posStr.data
  let elEdge := parts.headD []
  let vpEdge := parts.get? 1
  let elOffset : Option ℚ :=
    if elEdge = "top".data then some (elRect.top + scrollY)
    else if elEdge = "center".data then some (elRect.top + scrollY + elRect.height / 2)
    else if elEdge = "bottom".data then some (elRect.bottom + scrollY)
    else (parseFloatJS elEdge).map (fun p => elRect.top + scrollY + p / 100 * elRect.height)
  let vpOffset : Option ℚ :=
    match vpEdge with
    | some s =>
      if s = "top".data then some 0
      else if s = "center".data then some (wh / 2)
      else if s = "bottom".data then some wh
      else (parseFloatJS s).map (fun p => p / 100 * wh)
    | none => none
  match elOffset, vpOffset with
  | some e, some v => some (e - v)
  | _, _ => none

/-- The scroll-trigger position configuration read by
`_calculateScrollBounds` (`config.start` / `config.end` / `config.pin`).
`none` models an absent property. -/
structure STConfig where
  start : Option String
  «end» : Option String
  pin : Bool
deriving DecidableEq

/-- JS `config.start || "top bottom"`: an absent or empty (falsy) spec falls
back to the default. -/
def orDefaultSpec (o : Option String) (d : String) : String :=
  match o with
  | some s => if s = "" then d else s
  | none => d

/-- External, unchanging inputs of a bounds recompute: the element's natural
box (as measured with its original styles restored), the scroll offset and
the viewport height. -/
structure Geometry where
  elTop : ℚ
  elHeight : ℚ
  elLeft : ℚ
  elWidth : ℚ
  scrollY : ℚ
  wh : ℚ
deriving DecidableEq

/-- The mutable per-element record written by `_calculateScrollBounds`
(`data.scroll.start/end/pinStart/pinEnd/pinTop`), plus the pin spacer's
current CSS height and presence, which feed back into the measurement. -/
structure BoundsState where
  start : Option ℚ
  «end» : Option ℚ
  pinStart : Option ℚ
  pinEnd : Option ℚ
  pinTop : Option ℚ
  spacerHeight : ℚ
  hasSpacer : Bool
deriving DecidableEq

/-- The rect measured at the top of `_calculateScrollBounds`:
`data.scroll.pinSpacer?.getBoundingClientRect() || element.getBoundingClientRect()`.
The spacer sits at the element's flow position with its currently assigned
height; without a spacer the element's natural rect is used. -/
def measuredRect (g : Geometry) (bs : BoundsState) : Rect :=
  if bs.hasSpacer then ⟨g.elTop, bs.spacerHeight, g.elLeft, g.elWidth⟩
  else ⟨g.elTop, g.elHeight, g.elLeft, g.elWidth⟩

/-- `_calculateScrollBounds`: resolves `start`, then `end` (with the `"+="`
relative form against the already-computed start, percent deltas scaling the
viewport height), and when pinning also `pinTop`, `pinStart = start`,
`pinEnd = end` and the spacer height `end - start + rect.height`.  Setting
the spacer height to `"NaNpx"` is rejected by the DOM, leaving the height
unchanged, which the fallback branch models. -/
def calculateScrollBounds (cfg : STConfig) (g : Geometry) (bs : BoundsState) :
    BoundsState :=
  let rect := measuredRect g bs
  let startV := parsePos (orDefaultSpec cfg.start "top bottom") rect g.scrollY g.wh
  let endV : Option ℚ :=
    match cfg.«end» with
    | some s =>
      if ("+=".data).isPrefixOf s.data then
        let offset : Option ℚ :=
          if s.data.contains '%' then
            (parseFloatJS (s.data.drop 2)).map (fun p => p / 100 * g.wh)
          else parseFloatJS (s.data.drop 2)
        match startV, offset with
        | some st, some o => some (st + o)
        | _, _ => none
      else parsePos (orDefaultSpec cfg.«end» "bottom top") rect g.scrollY g.wh
    | none => parsePos "bottom top" rect g.scrollY g.wh
  if cfg.pin then
    let parts := splitOnSpace (orDefaultSpec cfg.start "top bottom").data
    let startElEdge := parts.headD []
    let startVpEdge := parts.get? 1
    let vpOffset : Option ℚ :=
      match startVpEdge with
      | some s =>
        if s = "top".data then some 0
        else if s = "center".data then some (g.wh / 2)
        else if s = "bottom".data then some g.wh
        else (parseFloatJS s).map (fun p => p / 100 * g.wh)
      | none => none
    let elEdgeOffset : Option ℚ :=
      if startElEdge = "top".data then some 0
      else if startElEdge = "center".data then some (rect.height / 2)
      else if startElEdge = "bottom".data then some rect.height
      else (parseFloatJS startElEdge).map (fun p => p / 100 * rect.height)
    let pinTopV : Option ℚ :=
      match vpOffset, elEdgeOffset with
      | some v, some e => some (v - e)
      | _, _ => none
    let spacerHeight' : ℚ :=
      if bs.hasSpacer then
        match endV, startV with
        | some e, some st => e - st + rect.height
        | _, _ => bs.spacerHeight
      else bs.spacerHeight
    { start := startV, «end» := endV, pinStart := startV, pinEnd := endV,
      pinTop := pinTopV, spacerHeight := spacerHeight', hasSpacer := bs.hasSpacer }
  else
    { bs with start := startV, «end» := endV }

/-- `_updatePinSpacer` (the part relevant to geometry): restore the
element's original styles, measure its natural rect, and set the spacer's
height to that natural height. -/
def updatePinSpacer (g : Geometry) (bs : BoundsState) : BoundsState :=
  { bs with spacerHeight := g.elHeight }

/-- The per-element body of `_handleResize` (the recompute pass):
`if (data.scroll.pinSpacer) _updatePinSpacer(); _calculateScrollBounds()`. -/
def recomputePass (cfg : STConfig) (g : Geometry) (bs : BoundsState) :
    BoundsState :=
  let bs1 := if bs.hasSpacer then updatePinSpacer g bs else bs
  calculateScrollBounds cfg g bs1

/-! ## The per-frame scroll state machine: `_updateScrollAnimations`

The per-element body of `_updateScrollAnimations` reads the numeric bounds
stored in `data.scroll` and the previous `scrollState`, fires transition
callbacks, emits animation commands (play / toggle actions / scrub seek) and
mutates the element style for pinning.  Here the stored bounds are taken as
plain rationals (a run on non-`NaN` bounds). -/

/-- The numeric contents of `data.scroll` bounds used by the evaluator. -/
structure Bounds where
  start : ℚ
  «end» : ℚ
  pinStart : ℚ
  pinEnd : ℚ
  pinTop : ℚ
  pinLeft : ℚ
  pinWidth : ℚ
deriving DecidableEq

/-- The mutable `data.scroll` evaluation state.  `lastY` is `none` before
the first evaluation (`data.scroll.lastY` starts out `undefined`). -/
structure ScrollState where
  isActive : Bool
  progress : ℚ
  direction : Int
  lastY : Option ℚ
  isPinned : Bool
deriving DecidableEq

/-- The state installed by `observe`:
`{ isActive: false, progress: 0, direction: 1 }`, `lastY`/`isPinned` unset. -/
def initialScrollState : ScrollState :=
  { isActive := false, progress := 0, direction := 1, lastY := none,
    isPinned := false }

/-- A CSS size: pixel (`"123px"`) or percentage (`"100%"`). -/
inductive CssSize
  | px (v : ℚ)
  | percent (v : ℚ)
deriving DecidableEq

/-- The element style properties the pin logic writes, with CSS lengths as
pixel values (`top = 0` models the string `"0"`). -/
structure ElStyle where
  position : String
  top : ℚ
  left : ℚ
  width : CssSize
deriving DecidableEq

/-- The element's style right after `_createPinSpacer`:
`{ margin: "0", position: "absolute", top: "0", left: "0", width: "100%" }`. -/
def pinnedInitialStyle : ElStyle :=
  { position := "absolute", top := 0, left := 0, width := .percent 100 }

/-- The scroll-trigger flags the evaluator consults. -/
structure EvalCfg where
  scrub : Bool
  pin : Bool
  toggleActions : Option String
deriving DecidableEq

/-- A call made on the animation instance during one evaluation. -/
inductive AnimCmd
  | play
  | toggle (action : String)
  | seek (v : ℚ)
deriving DecidableEq

/-- `_runToggleAction`: `actions.split(" ")[index] || "play"` (a missing or
empty slot falls back to `"play"`). -/
def runToggleAction (actions : String) (index : ℕ) : String :=
  match (splitOnSpace actions.data).get? index with
  | some [] => "play"
  | some cs => String.mk cs
  | none => "play"

/-- `if (config.toggleActions)`: the empty string is falsy, so only a
non-empty `toggleActions` string is used. -/
def jsToggles (o : Option String) : Option String :=
  match o with
  | some s => if s = "" then none else some s
  | none => none

/-- Commands of the enter branch: toggle action 0, else (when not
scrubbing) `play`. -/
def enterCmdsOf (scrub : Bool) (toggles : Option String) (fired : Bool) :
    List AnimCmd :=
  if fired then
    match toggles with
    | some acts => [.toggle (runToggleAction acts 0)]
    | none => if scrub then [] else [.play]
  else []

/-- Commands of the leave branch: toggle action 2 on `onLeave`, toggle
action 3 on `onLeaveBack`. -/
def leaveCmdsOf (toggles : Option String) (firedLeave firedLeaveBack : Bool) :
    List AnimCmd :=
  if firedLeave then
    match toggles with
    | some acts => [.toggle (runToggleAction acts 2)]
    | none => []
  else if firedLeaveBack then
    match toggles with
    | some acts => [.toggle (runToggleAction acts 3)]
    | none => []
  else []

/-- Commands of the enter-back branch: toggle action 1. -/
def enterBackCmdsOf (toggles : Option String) (fired : Bool) : List AnimCmd :=
  if fired then
    match toggles with
    | some acts => [.toggle (runToggleAction acts 1)]
    | none => []
  else []

/-- The scrub command: `instance.seek(instance.duration * clampedProgress)`,
issued on every evaluation whenever scrubbing is enabled. -/
def scrubCmdsOf (scrub : Bool) (v : ℚ) : List AnimCmd :=
  if scrub then [.seek v] else []

/-- `data.scroll.lastY || scrollY`: JS falsiness makes both an unset `lastY`
and a `lastY` of exactly `0` fall back to the current `scrollY`. -/
def jsEffectiveLastY (st : ScrollState) (scrollY : ℚ) : ℚ :=
  match st.lastY with
  | none => scrollY
  | some l => if l = 0 then scrollY else l

/-- `scrollY > (data.scroll.lastY || scrollY) ? 1 : -1`. -/
def jsDirection (st : ScrollState) (scrollY : ℚ) : Int :=
  if scrollY > jsEffectiveLastY st scrollY then 1 else -1

/-- `end === start ? 1 : Math.max(0, Math.min(1, (scrollY-start)/(end-start)))`. -/
def clampedProgress (b : Bounds) (scrollY : ℚ) : ℚ :=
  if b.«end» = b.start then 1
  else max 0 (min 1 ((scrollY - b.start) / (b.«end» - b.start)))

/-- `scrollY >= start && scrollY <= end`. -/
def isActiveAt (b : Bounds) (scrollY : ℚ) : Bool :=
  decide (b.start ≤ scrollY ∧ scrollY ≤ b.«end»)

/-- The `if (config.pin)` block of `_updateScrollAnimations`: the style and
pinned flag after one evaluation.  Style is written only when the pinned
flag is about to change. -/
def pinStep (cfg : EvalCfg) (b : Bounds) (st : ScrollState) (style : ElStyle)
    (scrollY : ℚ) : ElStyle × Bool :=
  if cfg.pin then
    if b.pinStart ≤ scrollY ∧ scrollY ≤ b.pinEnd then
      if !st.isPinned then
        ({ position := "fixed", top := b.pinTop, left := b.pinLeft,
           width := .px b.pinWidth }, true)
      else (style, st.isPinned)
    else
      if st.isPinned then
        ({ style with
            position := "absolute"
            left := 0
            top := if scrollY < b.pinStart then 0 else b.pinEnd - b.pinStart },
         false)
      else (style, st.isPinned)
  else (style, st.isPinned)

/-- Everything one evaluation produces: which transition callbacks fired,
the animation commands issued, and the updated state and style.  `atY`
echoes the evaluated scroll position. -/
structure EvalOut where
  atY : ℚ
  firedEnter : Bool
  firedLeave : Bool
  firedLeaveBack : Bool
  firedEnterBack : Bool
  cmds : List AnimCmd
  state : ScrollState
  style : ElStyle
deriving DecidableEq

/-- The per-element body of `_updateScrollAnimations`. -/
def updateScrollAnimations (cfg : EvalCfg) (duration : ℚ) (b : Bounds)
    (st : ScrollState) (style : ElStyle) (scrollY : ℚ) : EvalOut :=
  let wasActive := st.isActive
  let isActive := isActiveAt b scrollY
  let progress := clampedProgress b scrollY
  let direction := jsDirection st scrollY
  let toggles := jsToggles cfg.toggleActions
  let firedEnter := isActive && !wasActive
  let firedLeave := !isActive && wasActive && decide (direction = 1)
  let firedLeaveBack := !isActive && wasActive && decide (direction ≠ 1)
  let firedEnterBack :=
    isActive && wasActive && decide (direction ≠ st.direction) &&
      decide (direction = -1)
  let enterCmds := enterCmdsOf cfg.scrub toggles firedEnter
  let leaveCmds := leaveCmdsOf toggles firedLeave firedLeaveBack
  let enterBackCmds := enterBackCmdsOf toggles firedEnterBack
  let scrubCmds := scrubCmdsOf cfg.scrub (duration * progress)
  let pinResult : ElStyle × Bool := pinStep cfg b st style scrollY
  { atY := scrollY
    firedEnter := firedEnter
    firedLeave := firedLeave
    firedLeaveBack := firedLeaveBack
    firedEnterBack := firedEnterBack
    cmds := enterCmds ++ leaveCmds ++ enterBackCmds ++ scrubCmds
    state := { isActive := isActive, progress := progress,
               direction := direction, lastY := some scrollY,
               isPinned := pinResult.2 }
    style := pinResult.1 }

/-- Run the evaluator over a sequence of scroll positions, collecting each
evaluation's output (one dispatched frame per list element). -/
def runSteps (cfg : EvalCfg) (duration : ℚ) (b : Bounds) :
    ScrollState → ElStyle → List ℚ → List EvalOut
  | _, _, [] => []
  | st, sty, y :: ys =>
    let o := updateScrollAnimations cfg duration b st sty y
    o :: runSteps cfg duration b o.state o.style ys

/-- The state and style left after a sequence of evaluations. -/
def runState (cfg : EvalCfg) (duration : ℚ) (b : Bounds) :
    ScrollState → ElStyle → List ℚ → ScrollState × ElStyle
  | st, sty, [] => (st, sty)
  | st, sty, y :: ys =>
    let o := updateScrollAnimations cfg duration b st sty y
    runState cfg duration b o.state o.style ys

/-- Number of `onEnter` firings along a run. -/
def enterCount (cfg : EvalCfg) (duration : ℚ) (b : Bounds) (st : ScrollState)
    (sty : ElStyle) (ys : List ℚ) : ℕ :=
  (runSteps cfg duration b st sty ys).countP (·.firedEnter)

/-- Number of `onLeave` firings along a run. -/
def leaveCount (cfg : EvalCfg) (duration : ℚ) (b : Bounds) (st : ScrollState)
    (sty : ElStyle) (ys : List ℚ) : ℕ :=
  (runSteps cfg duration b st sty ys).countP (·.firedLeave)

/-- Number of `onLeaveBack` firings along a run. -/
def leaveBackCount (cfg : EvalCfg) (duration : ℚ) (b : Bounds)
    (st : ScrollState) (sty : ElStyle) (ys : List ℚ) : ℕ :=
  (runSteps cfg duration b st sty ys).countP (·.firedLeaveBack)

/-- The seek arguments among one evaluation's commands. -/
def seekCmds (l : List AnimCmd) : List ℚ :=
  l.filterMap fun c =>
    match c with
    | .seek v => some v
    | _ => none

/-! ## The public `seek(target, value)` control -/

/-- A value passed to `seek`: a number (milliseconds) or a string. -/
inductive SeekVal
  | num (v : ℚ)
  | str (s : String)
deriving DecidableEq

/-- What `instance.seek` receives: either a computed number (possibly `NaN`
when the percent failed to parse) or the caller's value passed through. -/
inductive SeekArg
  | computed (v : Option ℚ)
  | passthrough (v : SeekVal)
deriving DecidableEq

/-- Per-target body of `seek`: `none` when the target's data has no
animation instance (the target is skipped); otherwise the argument handed to
`instance.seek`.  `duration` is `data.instance.duration`. -/
def seekDispatch (instanceDuration : Option ℚ) (value : SeekVal) :
    Option SeekArg :=
  match instanceDuration with
  | none => none
  | some duration =>
    match value with
    | .str s =>
      if s.data.getLast? = some '%' then
        let percent := (parseFloatJS s.data).map (fun p => p / 100)
        some (.computed (percent.map (fun p => duration * p)))
      else some (.passthrough value)
    | .num v => some (.passthrough (.num v))

/-! ## Pin spacer: inline-style snapshot/restore and DOM round trip -/

/-- The inline style properties snapshotted by `_createPinSpacer`
(`el.style.position/top/left/width/margin`), kept as raw strings. -/
structure InlineStyle where
  position : String
  top : String
  left : String
  width : String
  margin : String
deriving DecidableEq

/-- The snapshot stored in `data.scroll.originalStyles`. -/
def snapshotStyles (s : InlineStyle) : InlineStyle :=
  { position := s.position, top := s.top, left := s.left, width := s.width,
    margin := s.margin }

/-- The style mutations the pin lifecycle performs after the snapshot. -/
inductive PinStyleOp
  | spacerChild
  | pinFixed (pinTop pinLeft pinWidth : ℚ)
  | unpin (topPx : ℚ)
  | spacerUpdate (snap : InlineStyle)
deriving DecidableEq

/-- One `Object.assign(el.style, …)` from the pin lifecycle:
`_createPinSpacer`'s final assign, the pin/unpin assigns in
`_updateScrollAnimations`, and `_updatePinSpacer`'s restore-and-reapply. -/
def applyPinStyleOp : PinStyleOp → InlineStyle → InlineStyle
  | .spacerChild, s =>
    { s with
      margin := "0"
      position := "absolute"
      top := "0"
      left := "0"
      width := "100%" }
  | .pinFixed pinTop pinLeft pinWidth, s =>
    { s with
      position := "fixed"
      top := toString pinTop ++ "px"
      left := toString pinLeft ++ "px"
      width := toString pinWidth ++ "px" }
  | .unpin topPx, s =>
    { s with
      position := "absolute"
      left := "0"
      top := toString topPx ++ "px" }
  | .spacerUpdate snap, _ =>
    { position := "absolute", top := "0", left := "0", width := "100%",
      margin := snap.margin }

/-- A sequence of pin-lifecycle style mutations. -/
def applyPinStyleOps (ops : List PinStyleOp) (s : InlineStyle) : InlineStyle :=
  ops.foldl (fun a o => applyPinStyleOp o a) s

/-- `destroy`'s `Object.assign(el.style, data.scroll.originalStyles)`:
writes the five snapshotted properties back. -/
def restoreStyles (snap : InlineStyle) (_current : InlineStyle) : InlineStyle :=
  { position := snap.position, top := snap.top, left := snap.left,
    width := snap.width, margin := snap.margin }

/-- A node in the parent's child list: the observed element (by id) or a pin
spacer wrapping one node. -/
inductive DomNode
  | elem (id : ℕ)
  | spacer (child : DomNode)
deriving DecidableEq

/-- `_createPinSpacer`'s DOM effect on the parent's child list:
`parentNode.insertBefore(spacer, el); spacer.appendChild(el)` — the first
occurrence of the element is wrapped in a spacer. -/
def wrapElem (i : ℕ) : List DomNode → List DomNode
  | [] => []
  | n :: rest =>
    if n = .elem i then .spacer n :: rest
    else n :: wrapElem i rest

/-- `destroy`'s `data.scroll.pinSpacer.replaceWith(el)`: the first spacer
wrapping the element is replaced by the element itself. -/
def replaceSpacerWith (i : ℕ) : List DomNode → List DomNode
  | [] => []
  | n :: rest =>
    if n = .spacer (.elem i) then .elem i :: rest
    else n :: replaceSpacerWith i rest

/-! ## Basic evaluation lemmas -/

lemma update_firedEnter (cfg : EvalCfg) (duration : ℚ) (b : Bounds)
    (st : ScrollState) (sty : ElStyle) (y : ℚ) :
    (updateScrollAnimations cfg duration b st sty y).firedEnter =
      (isActiveAt b y && !st.isActive) := rfl

lemma update_firedLeave (cfg : EvalCfg) (duration : ℚ) (b : Bounds)
    (st : ScrollState) (sty : ElStyle) (y : ℚ) :
    (updateScrollAnimations cfg duration b st sty y).firedLeave =
      (!isActiveAt b y && st.isActive && decide (jsDirection st y = 1)) := rfl

lemma update_firedLeaveBack (cfg : EvalCfg) (duration : ℚ) (b : Bounds)
    (st : ScrollState) (sty : ElStyle) (y : ℚ) :
    (updateScrollAnimations cfg duration b st sty y).firedLeaveBack =
      (!isActiveAt b y && st.isActive && decide (jsDirection st y ≠ 1)) := rfl

lemma update_state_isActive (cfg : EvalCfg) (duration : ℚ) (b : Bounds)
    (st : ScrollState) (sty : ElStyle) (y : ℚ) :
    (updateScrollAnimations cfg duration b st sty y).state.isActive =
      isActiveAt b y := rfl

lemma update_state_progress (cfg : EvalCfg) (duration : ℚ) (b : Bounds)
    (st : ScrollState) (sty : ElStyle) (y : ℚ) :
    (updateScrollAnimations cfg duration b st sty y).state.progress =
      clampedProgress b y := rfl

lemma update_state_direction (cfg : EvalCfg) (duration : ℚ) (b : Bounds)
    (st : ScrollState) (sty : ElStyle) (y : ℚ) :
    (updateScrollAnimations cfg duration b st sty y).state.direction =
      jsDirection st y := rfl

lemma update_state_lastY (cfg : EvalCfg) (duration : ℚ) (b : Bounds)
    (st : ScrollState) (sty : ElStyle) (y : ℚ) :
    (updateScrollAnimations cfg duration b st sty y).state.lastY = some y := rfl

lemma update_state_isPinned (cfg : EvalCfg) (duration : ℚ) (b : Bounds)
    (st : ScrollState) (sty : ElStyle) (y : ℚ) :
    (updateScrollAnimations cfg duration b st sty y).state.isPinned =
      (pinStep cfg b st sty y).2 := rfl

lemma update_style (cfg : EvalCfg) (duration : ℚ) (b : Bounds)
    (st : ScrollState) (sty : ElStyle) (y : ℚ) :
    (updateScrollAnimations cfg duration b st sty y).style =
      (pinStep cfg b st sty y).1 := rfl

lemma update_atY (cfg : EvalCfg) (duration : ℚ) (b : Bounds)
    (st : ScrollState) (sty : ElStyle) (y : ℚ) :
    (updateScrollAnimations cfg duration b st sty y).atY = y := rfl

/-- The direction value is always `1` or `-1`. -/
lemma jsDirection_cases (st : ScrollState) (y : ℚ) :
    jsDirection st y = 1 ∨ jsDirection st y = -1 := by
  unfold jsDirection
  split
  · exact Or.inl rfl
  · exact Or.inr rfl

lemma update_cmds (cfg : EvalCfg) (duration : ℚ) (b : Bounds)
    (st : ScrollState) (sty : ElStyle) (y : ℚ) :
    (updateScrollAnimations cfg duration b st sty y).cmds =
      enterCmdsOf cfg.scrub (jsToggles cfg.toggleActions)
          (isActiveAt b y && !st.isActive) ++
        leaveCmdsOf (jsToggles cfg.toggleActions)
          (!isActiveAt b y && st.isActive && decide (jsDirection st y = 1))
          (!isActiveAt b y && st.isActive && decide (jsDirection st y ≠ 1)) ++
        enterBackCmdsOf (jsToggles cfg.toggleActions)
          (isActiveAt b y && st.isActive &&
            decide (jsDirection st y ≠ st.direction) &&
            decide (jsDirection st y = -1)) ++
        scrubCmdsOf cfg.scrub (duration * clampedProgress b y) := rfl

lemma seekCmds_append (l₁ l₂ : List AnimCmd) :
    seekCmds (l₁ ++ l₂) = seekCmds l₁ ++ seekCmds l₂ := by
  simp [seekCmds]

lemma seekCmds_enterCmdsOf (scrub : Bool) (toggles : Option String)
    (fired : Bool) : seekCmds (enterCmdsOf scrub toggles fired) = [] := by
  cases toggles <;> cases fired <;> cases scrub <;> rfl

lemma seekCmds_leaveCmdsOf (toggles : Option String) (f1 f2 : Bool) :
    seekCmds (leaveCmdsOf toggles f1 f2) = [] := by
  cases toggles <;> cases f1 <;> cases f2 <;> rfl

lemma seekCmds_enterBackCmdsOf (toggles : Option String) (fired : Bool) :
    seekCmds (enterBackCmdsOf toggles fired) = [] := by
  cases toggles <;> cases fired <;> rfl

lemma seekCmds_scrubCmdsOf (scrub : Bool) (v : ℚ) :
    seekCmds (scrubCmdsOf scrub v) = if scrub then [v] else [] := by
  cases scrub <;> rfl

/-- Exactly the scrub seek makes it into the command stream. -/
lemma seekCmds_update (cfg : EvalCfg) (duration : ℚ) (b : Bounds)
    (st : ScrollState) (sty : ElStyle) (y : ℚ) :
    seekCmds (updateScrollAnimations cfg duration b st sty y).cmds =
      if cfg.scrub then [duration * clampedProgress b y] else [] := by
  rw [update_cmds, seekCmds_append, seekCmds_append, seekCmds_append,
    seekCmds_enterCmdsOf, seekCmds_leaveCmdsOf, seekCmds_enterBackCmdsOf,
    seekCmds_scrubCmdsOf]
  simp

/-! ## Progress and direction lemmas -/

lemma clampedProgress_of_lt_start (b : Bounds) (y : ℚ)
    (hlt : b.start < b.«end») (hy : y < b.start) : clampedProgress b y = 0 := by
  unfold clampedProgress
  rw [if_neg (ne_of_gt hlt)]
  have hden : 0 < b.«end» - b.start := sub_pos.mpr hlt
  have hq : (y - b.start) / (b.«end» - b.start) < 0 :=
    div_neg_of_neg_of_pos (sub_neg.mpr hy) hden
  rw [min_eq_right (le_trans hq.le zero_le_one), max_eq_left hq.le]

lemma clampedProgress_of_gt_end (b : Bounds) (y : ℚ)
    (hlt : b.start < b.«end») (hy : b.«end» < y) : clampedProgress b y = 1 := by
  unfold clampedProgress
  rw [if_neg (ne_of_gt hlt)]
  have hden : 0 < b.«end» - b.start := sub_pos.mpr hlt
  have hq : 1 < (y - b.start) / (b.«end» - b.start) :=
    (one_lt_div hden).mpr (by linarith)
  rw [min_eq_left hq.le, max_eq_right zero_le_one]

lemma clampedProgress_mono (b : Bounds) (hlt : b.start < b.«end»)
    {y1 y2 : ℚ} (h : y1 ≤ y2) :
    clampedProgress b y1 ≤ clampedProgress b y2 := by
  unfold clampedProgress
  rw [if_neg (ne_of_gt hlt), if_neg (ne_of_gt hlt)]
  have hden : 0 < b.«end» - b.start := sub_pos.mpr hlt
  have hq : (y1 - b.start) / (b.«end» - b.start) ≤
      (y2 - b.start) / (b.«end» - b.start) := by
    apply div_le_div_of_nonneg_right _ hden.le
    linarith
  exact max_le_max le_rfl (min_le_min le_rfl hq)

lemma jsDirection_none (st : ScrollState) (y : ℚ) (h : st.lastY = none) :
    jsDirection st y = -1 := by
  simp [jsDirection, jsEffectiveLastY, h]

lemma jsDirection_some_zero (st : ScrollState) (y : ℚ)
    (h : st.lastY = some 0) : jsDirection st y = -1 := by
  simp [jsDirection, jsEffectiveLastY, h]

lemma jsDirection_some_gt (st : ScrollState) (y l : ℚ) (h : st.lastY = some l)
    (h0 : l ≠ 0) (hlt : l < y) : jsDirection st y = 1 := by
  simp [jsDirection, jsEffectiveLastY, h, h0, hlt]

lemma jsDirection_some_le (st : ScrollState) (y l : ℚ) (h : st.lastY = some l)
    (h0 : l ≠ 0) (hle : y ≤ l) : jsDirection st y = -1 := by
  simp [jsDirection, jsEffectiveLastY, h, h0, not_lt.mpr hle]

/-! ## Claim C2 -/

/-- C2 (amended): on every evaluation `isActive` is exactly
`start ≤ y ∧ y ≤ end` and `progress` is exactly the code's clamped formula
(`1` when `start = end`); moreover, whenever `start < end`, progress is `0`
for `y < start`, `1` for `y > end`, and monotone non-decreasing in `y`.
(The original claim's consequent fails when `end < start`, where the clamp
of a ratio with negative denominator is reversed; see the
counterexample.) -/
theorem claim2_progress_activation :
    (∀ (cfg : EvalCfg) (duration : ℚ) (b : Bounds) (st : ScrollState)
        (sty : ElStyle) (y : ℚ),
        (updateScrollAnimations cfg duration b st sty y).state.isActive =
            isActiveAt b y ∧
          (updateScrollAnimations cfg duration b st sty y).state.progress =
            clampedProgress b y) ∧
    (∀ (b : Bounds) (y : ℚ), b.«end» = b.start → clampedProgress b y = 1) ∧
    (∀ (b : Bounds) (y : ℚ), b.«end» ≠ b.start →
        clampedProgress b y =
          max 0 (min 1 ((y - b.start) / (b.«end» - b.start)))) ∧
    (∀ (b : Bounds) (y : ℚ), b.start < b.«end» → y < b.start →
        clampedProgress b y = 0) ∧
    (∀ (b : Bounds) (y : ℚ), b.start < b.«end» → b.«end» < y →
        clampedProgress b y = 1) ∧
    (∀ (b : Bounds) (y1 y2 : ℚ), b.start < b.«end» → y1 ≤ y2 →
        clampedProgress b y1 ≤ clampedProgress b y2) := by
  refine ⟨fun cfg duration b st sty y => ⟨rfl, rfl⟩, ?_, ?_, ?_, ?_, ?_⟩
  · intro b y h
    unfold clampedProgress
    rw [if_pos h]
  · intro b y h
    unfold clampedProgress
    rw [if_neg h]
  · exact fun b y h1 h2 => clampedProgress_of_lt_start b y h1 h2
  · exact fun b y h1 h2 => clampedProgress_of_gt_end b y h1 h2
  · exact fun b y1 y2 h1 h2 => clampedProgress_mono b h1 h2

/-- C2 witness: with `start = 100 < end = 300`, progress is `0` at `y = 50`,
`1` at `y = 400`, and monotone between `y = 150` and `y = 200`. -/
theorem claim2_witness :
    clampedProgress ⟨100, 300, 0, 0, 0, 0, 0⟩ 50 = 0 ∧
    clampedProgress ⟨100, 300, 0, 0, 0, 0, 0⟩ 400 = 1 ∧
    clampedProgress ⟨100, 300, 0, 0, 0, 0, 0⟩ 150 ≤
      clampedProgress ⟨100, 300, 0, 0, 0, 0, 0⟩ 200 :=
  ⟨claim2_progress_activation.2.2.2.1 ⟨100, 300, 0, 0, 0, 0, 0⟩ 50
      (by norm_num) (by norm_num),
   claim2_progress_activation.2.2.2.2.1 ⟨100, 300, 0, 0, 0, 0, 0⟩ 400
      (by norm_num) (by norm_num),
   claim2_progress_activation.2.2.2.2.2 ⟨100, 300, 0, 0, 0, 0, 0⟩ 150 200
      (by norm_num) (by norm_num)⟩

/-- C2 counterexample: with `start = 100`, `end = 50` (so `start ≠ end`) and
`y = 0 < start`, the code's progress is `1`, refuting "progress is 0 for all
`y < start`" as universally stated. -/
theorem claim2_counterexample :
    clampedProgress ⟨100, 50, 0, 0, 0, 0, 0⟩ 0 = 1 ∧ (0 : ℚ) < 100 ∧
      (1 : ℚ) ≠ 0 := by
  refine ⟨by norm_num [clampedProgress], by norm_num, by norm_num⟩

/-! ## Claim C3 -/

/-- C3 (amended): the persisted direction is exactly
`scrollY > (lastY || scrollY) ? 1 : -1`: it is `1` iff the last recorded
scroll position exists, is nonzero, and `scrollY` strictly exceeds it;
otherwise `-1` — in particular `-1` on a tie (the previously stored
direction is NOT retained), `-1` on the very first evaluation, and `-1`
whenever the last recorded position was exactly `0` (JS falsiness). -/
theorem claim3_direction :
    (∀ (cfg : EvalCfg) (duration : ℚ) (b : Bounds) (st : ScrollState)
        (sty : ElStyle) (y : ℚ),
        (updateScrollAnimations cfg duration b st sty y).state.direction =
          jsDirection st y) ∧
    (∀ (st : ScrollState) (y : ℚ), st.lastY = none → jsDirection st y = -1) ∧
    (∀ (st : ScrollState) (y : ℚ), st.lastY = some 0 →
        jsDirection st y = -1) ∧
    (∀ (st : ScrollState) (y l : ℚ), st.lastY = some l → l ≠ 0 → l < y →
        jsDirection st y = 1) ∧
    (∀ (st : ScrollState) (y l : ℚ), st.lastY = some l → l ≠ 0 → y ≤ l →
        jsDirection st y = -1) :=
  ⟨fun _ _ _ _ _ _ => rfl,
   jsDirection_none, jsDirection_some_zero,
   fun st y l h h0 hlt => jsDirection_some_gt st y l h h0 hlt,
   fun st y l h h0 hle => jsDirection_some_le st y l h h0 hle⟩

/-- C3 witness: with last position `50`, direction is `1` at `y = 60` and
`-1` at the tie `y = 50`; on a fresh state it is `-1`. -/
theorem claim3_witness :
    jsDirection { isActive := false, progress := 0, direction := 1,
                  lastY := some 50, isPinned := false } 60 = 1 ∧
    jsDirection { isActive := false, progress := 0, direction := 1,
                  lastY := some 50, isPinned := false } 50 = -1 ∧
    jsDirection initialScrollState 5 = -1 :=
  ⟨claim3_direction.2.2.2.1 _ 60 50 rfl (by norm_num) (by norm_num),
   claim3_direction.2.2.2.2 _ 50 50 rfl (by norm_num) le_rfl,
   claim3_direction.2.1 initialScrollState 5 rfl⟩

/-- C3 counterexample: after evaluations at `50` then `60` the stored
direction is `1`; a third evaluation at the tie `60` yields `-1`, not the
retained `1` the claim requires; and the very first evaluation (at `5`)
yields `-1`, not the claimed default `1`. -/
theorem claim3_counterexample :
    (runState ⟨false, false, none⟩ 0 ⟨100, 300, 0, 0, 0, 0, 0⟩
        initialScrollState pinnedInitialStyle [50, 60]).1.direction = 1 ∧
    (runState ⟨false, false, none⟩ 0 ⟨100, 300, 0, 0, 0, 0, 0⟩
        initialScrollState pinnedInitialStyle [50, 60, 60]).1.direction = -1 ∧
    (runState ⟨false, false, none⟩ 0 ⟨100, 300, 0, 0, 0, 0, 0⟩
        initialScrollState pinnedInitialStyle [5]).1.direction = -1 := by
  decide

/-! ## Claim C4 -/

/-- C4 (amended): with scrubbing enabled every evaluation unconditionally
issues exactly one seek, with argument `duration * clampedProgress`
(regardless of transitions); without scrubbing, none.  In the scenario
`scrub = true`, `duration = 1000`, `start = 0`, `end = 500`, `y = 250`, the
seek argument is `500` (the original claim's `250` is wrong:
`1000 × 0.5 = 500`). -/
theorem claim4_scrub_seek :
    (∀ (cfg : EvalCfg) (duration : ℚ) (b : Bounds) (st : ScrollState)
        (sty : ElStyle) (y : ℚ),
        seekCmds (updateScrollAnimations cfg duration b st sty y).cmds =
          if cfg.scrub then [duration * clampedProgress b y] else []) ∧
    (∀ (st : ScrollState) (sty : ElStyle),
        seekCmds (updateScrollAnimations ⟨true, false, none⟩ 1000
            ⟨0, 500, 0, 0, 0, 0, 0⟩ st sty 250).cmds = [500]) := by
  refine ⟨seekCmds_update, ?_⟩
  intro st sty
  rw [seekCmds_update]
  have h : clampedProgress ⟨0, 500, 0, 0, 0, 0, 0⟩ 250 = 1 / 2 := by
    norm_num [clampedProgress]
  rw [if_pos rfl, h]
  norm_num

/-- C4 counterexample: at the claim's scenario the seek argument is `500`,
not the claimed `250`. -/
theorem claim4_counterexample :
    seekCmds (updateScrollAnimations ⟨true, false, none⟩ 1000
        ⟨0, 500, 0, 0, 0, 0, 0⟩ initialScrollState pinnedInitialStyle
        250).cmds = [500] ∧ (500 : ℚ) ≠ 250 := by
  constructor
  · rw [seekCmds_update]
    have h : clampedProgress ⟨0, 500, 0, 0, 0, 0, 0⟩ 250 = 1 / 2 := by
      norm_num [clampedProgress]
    rw [if_pos rfl, h]
    norm_num
  · norm_num

/-! ## Claim C10 -/

/-- C10: `seek(target, value)` hands a string ending in `%` to the
instance as `duration * (parseFloat(value) / 100)`, passes any other value
through unchanged, and silently skips targets without an instance. -/
theorem claim10_seek_dispatch :
    (∀ (d : ℚ) (s : String), s.data.getLast? = some '%' →
        seekDispatch (some d) (.str s) =
          some (.computed ((parseFloatJS s.data).map fun p => d * (p / 100)))) ∧
    (∀ (d : ℚ) (s : String), s.data.getLast? ≠ some '%' →
        seekDispatch (some d) (.str s) = some (.passthrough (.str s))) ∧
    (∀ (d v : ℚ), seekDispatch (some d) (.num v) =
        some (.passthrough (.num v))) ∧
    (∀ v : SeekVal, seekDispatch none v = none) := by
  refine ⟨?_, ?_, fun d v => rfl, fun v => rfl⟩
  · intro d s h
    simp only [seekDispatch]
    rw [if_pos h]
    cases hp : parseFloatJS s.data <;> simp [hp]
  · intro d s h
    simp only [seekDispatch]
    rw [if_neg h]

/-- C10 witness: `seek` with `"50%"` on an instance of duration `1000`
seeks to `500`; a numeric value passes through; no instance means skip. -/
theorem claim10_witness :
    seekDispatch (some 1000) (.str "50%") = some (.computed (some 500)) ∧
    seekDispatch (some 1000) (.num 250) =
      some (.passthrough (.num 250)) ∧
    seekDispatch none (.str "50%") = none := by
  refine ⟨?_, claim10_seek_dispatch.2.2.1 1000 250,
    claim10_seek_dispatch.2.2.2 (.str "50%")⟩
  rw [claim10_seek_dispatch.1 1000 "50%" (by decide)]
  have h : parseFloatJS "50%".data = some 50 := by
    simp [parseFloatJS, digitsToNat, fracValue]
  rw [h]
  simp
  norm_num

/-! ## Claim C8 -/

lemma restoreStyles_snapshot (s x : InlineStyle) :
    restoreStyles (snapshotStyles s) x = s := rfl

lemma replaceSpacer_wrap (i : ℕ) :
    ∀ l : List DomNode, DomNode.elem i ∈ l →
      DomNode.spacer (.elem i) ∉ l →
      replaceSpacerWith i (wrapElem i l) = l := by
  intro l
  induction l with
  | nil =>
    intro h _
    exact absurd h (List.not_mem_nil _)
  | cons n rest ih =>
    intro hmem hns
    by_cases hn : n = DomNode.elem i
    · subst hn
      simp [wrapElem, replaceSpacerWith]
    · have hmem' : DomNode.elem i ∈ rest := by
        rcases List.mem_cons.mp hmem with h | h
        · exact absurd h.symm hn
        · exact h
      have hns' : DomNode.spacer (.elem i) ∉ rest := fun h =>
        hns (List.mem_cons_of_mem _ h)
      have hnspacer : n ≠ DomNode.spacer (.elem i) := fun h =>
        hns (h ▸ List.mem_cons_self _ _)
      simp [wrapElem, replaceSpacerWith, hn, hnspacer, ih hmem' hns']

/-- C8: the inline styles written back by `destroy` are exactly those
snapshotted before any pin-lifecycle mutation, so the round trip
snapshot → mutate (spacer-child assign, any sequence of pin/unpin/update
assigns) → restore returns the element's original inline style record; and
replacing the spacer with the element undoes the DOM wrapping, restoring
the parent's original child list. -/
theorem claim8_teardown_roundtrip :
    (∀ (s : InlineStyle) (ops : List PinStyleOp),
        restoreStyles (snapshotStyles s)
          (applyPinStyleOps ops (applyPinStyleOp .spacerChild s)) = s) ∧
    (∀ (i : ℕ) (l : List DomNode), DomNode.elem i ∈ l →
        DomNode.spacer (.elem i) ∉ l →
        replaceSpacerWith i (wrapElem i l) = l) :=
  ⟨fun s _ => restoreStyles_snapshot s _,
   fun i l h1 h2 => replaceSpacer_wrap i l h1 h2⟩

/-- C8 witness: a concrete round trip through spacer creation, a pin, an
unpin and teardown restores the original styles and child list. -/
theorem claim8_witness :
    restoreStyles (snapshotStyles ⟨"", "", "", "", ""⟩)
        (applyPinStyleOps [.pinFixed 7 3 50, .unpin 200]
          (applyPinStyleOp .spacerChild ⟨"", "", "", "", ""⟩)) =
      ⟨"", "", "", "", ""⟩ ∧
    replaceSpacerWith 0 (wrapElem 0 [.elem 0, .elem 1]) =
      [.elem 0, .elem 1] :=
  ⟨claim8_teardown_roundtrip.1 ⟨"", "", "", "", ""⟩
      [.pinFixed 7 3 50, .unpin 200],
   claim8_teardown_roundtrip.2 0 [.elem 0, .elem 1] (by decide) (by decide)⟩

/-! ## Claim C9 -/

/-- C9: the per-element resize recompute (`_updatePinSpacer` when a spacer
exists, then `_calculateScrollBounds`) is idempotent under unchanged element
geometry, viewport height and scroll position: a second pass reproduces the
first pass's state, in particular identical `start`, `end`, `pinStart`,
`pinEnd`, `pinTop`. -/
theorem claim9_recompute_idempotent :
    ∀ (cfg : STConfig) (g : Geometry) (bs : BoundsState),
      recomputePass cfg g (recomputePass cfg g bs) = recomputePass cfg g bs := by
  intro cfg g bs
  unfold recomputePass
  by_cases hs : bs.hasSpacer <;> by_cases hp : cfg.pin <;>
    simp [hs, hp, updatePinSpacer, calculateScrollBounds, measuredRect]

/-! ## Bounds-computation lemmas -/

lemma orDefaultSpec_none (d : String) : orDefaultSpec none d = d := rfl

lemma orDefaultSpec_empty (d : String) : orDefaultSpec (some "") d = d := rfl

lemma orDefaultSpec_some (s d : String) (h : s ≠ "") :
    orDefaultSpec (some s) d = s := by
  simp [orDefaultSpec, h]

/-- The computed `start` field, in both the pin and non-pin branches. -/
lemma calc_start (cfg : STConfig) (g : Geometry) (bs : BoundsState) :
    (calculateScrollBounds cfg g bs).start =
      parsePos (orDefaultSpec cfg.start "top bottom") (measuredRect g bs)
        g.scrollY g.wh := by
  unfold calculateScrollBounds
  by_cases hp : cfg.pin <;> simp [hp]

/-- The computed `end` field for a `"+=<n>"` relative spec (no percent):
`start + n`, with `NaN` propagation. -/
lemma calc_end_plus_px (cfg : STConfig) (g : Geometry) (bs : BoundsState)
    (s : String) (n : ℚ) (hend : cfg.«end» = some s)
    (hpre : ("+=".data).isPrefixOf s.data = true)
    (hpct : s.data.contains '%' = false)
    (hn : parseFloatJS (s.data.drop 2) = some n) :
    (calculateScrollBounds cfg g bs).«end» =
      (calculateScrollBounds cfg g bs).start.map (· + n) := by
  rw [calc_start]
  unfold calculateScrollBounds
  by_cases hp : cfg.pin <;>
    simp only [hp, hend, hpre, hpct, hn, if_true, if_false, Bool.false_eq_true,
      ite_true, ite_false] <;>
    cases parsePos (orDefaultSpec cfg.start "top bottom") (measuredRect g bs)
      g.scrollY g.wh <;>
    simp

/-- The computed `end` field for a `"+=<n>%"` relative spec:
`start + (n / 100) * viewportHeight`. -/
lemma calc_end_plus_pct (cfg : STConfig) (g : Geometry) (bs : BoundsState)
    (s : String) (n : ℚ) (hend : cfg.«end» = some s)
    (hpre : ("+=".data).isPrefixOf s.data = true)
    (hpct : s.data.contains '%' = true)
    (hn : parseFloatJS (s.data.drop 2) = some n) :
    (calculateScrollBounds cfg g bs).«end» =
      (calculateScrollBounds cfg g bs).start.map (· + n / 100 * g.wh) := by
  rw [calc_start]
  unfold calculateScrollBounds
  by_cases hp : cfg.pin <;>
    simp only [hp, hend, hpre, hpct, hn, if_true, if_false, Bool.false_eq_true,
      ite_true, ite_false] <;>
    cases parsePos (orDefaultSpec cfg.start "top bottom") (measuredRect g bs)
      g.scrollY g.wh <;>
    simp

lemma splitOnSpace_ne_nil : ∀ cs : List Char, splitOnSpace cs ≠ [] := by
  intro cs
  cases cs with
  | nil => simp [splitOnSpace]
  | cons c rest =>
    simp only [splitOnSpace]
    split <;> simp

lemma splitOnSpace_cons_headD (c : Char) (cs : List Char) (h : ¬c = ' ') :
    (splitOnSpace (c :: cs)).headD [] =
      c :: (splitOnSpace cs).headD [] := by
  simp [splitOnSpace, h]

/-- `parseFloat` on anything starting `-=` is `NaN`. -/
lemma parseFloatJS_dashEq (w : List Char) :
    parseFloatJS ('-' :: '=' :: w) = none := rfl

/-- `parsePos` on a spec starting `-=` is `NaN`: the element-edge chunk is
no keyword and `parseFloat` fails on it. -/
lemma parsePos_dash (s : String) (r : List Char)
    (hd : s.data = '-' :: '=' :: r) (rect : Rect) (sY wh : ℚ) :
    parsePos s rect sY wh = none := by
  unfold parsePos
  rw [hd]
  have h1 : (splitOnSpace ('-' :: '=' :: r)).headD [] =
      '-' :: '=' :: ((splitOnSpace r).headD []) := by
    rw [splitOnSpace_cons_headD _ _ (by decide),
      splitOnSpace_cons_headD _ _ (by decide)]
  simp only [h1]
  rw [if_neg (by simp), if_neg (by simp), if_neg (by simp),
    parseFloatJS_dashEq]
  rfl

/-! ## Claim C5 -/

/-- C5 (amended): `"+=<n>"` end specs resolve to `start + n` and
`"+=<n>%"` to `start + (n/100) × viewportHeight` (`NaN` start propagates);
but `"-="` deltas are NOT supported symmetrically: an end spec starting
`"-="` falls through to absolute position parsing, which fails on it, so
the resolved end is `NaN` rather than `start − n`. -/
theorem claim5_relative_end :
    (∀ (cfg : STConfig) (g : Geometry) (bs : BoundsState) (s : String)
        (n : ℚ), cfg.«end» = some s →
        ("+=".data).isPrefixOf s.data = true →
        s.data.contains '%' = false →
        parseFloatJS (s.data.drop 2) = some n →
        (calculateScrollBounds cfg g bs).«end» =
          (calculateScrollBounds cfg g bs).start.map (· + n)) ∧
    (∀ (cfg : STConfig) (g : Geometry) (bs : BoundsState) (s : String)
        (n : ℚ), cfg.«end» = some s →
        ("+=".data).isPrefixOf s.data = true →
        s.data.contains '%' = true →
        parseFloatJS (s.data.drop 2) = some n →
        (calculateScrollBounds cfg g bs).«end» =
          (calculateScrollBounds cfg g bs).start.map (· + n / 100 * g.wh)) ∧
    (∀ (cfg : STConfig) (g : Geometry) (bs : BoundsState) (s : String)
        (r : List Char), cfg.«end» = some s → s.data = '-' :: '=' :: r →
        (calculateScrollBounds cfg g bs).«end» = none) := by
  refine ⟨calc_end_plus_px, calc_end_plus_pct, ?_⟩
  intro cfg g bs s r hend hd
  have hne : s ≠ "" := by
    intro h
    rw [h] at hd
    simp at hd
  have hpre : ("+=".data).isPrefixOf s.data = false := by
    rw [hd]
    rfl
  unfold calculateScrollBounds
  by_cases hp : cfg.pin <;>
    simp only [hp, hend, hpre, Bool.false_eq_true, if_true, if_false,
      ite_true, ite_false, orDefaultSpec_some s _ hne,
      parsePos_dash s r hd]

/-- C5 witness: with start resolving to `800`, `end: "+=200"` resolves to
`1000` and `end: "+=50%"` with viewport height `800` resolves to `1200`. -/
theorem claim5_witness :
    (calculateScrollBounds ⟨some "top top", some "+=200", false⟩
        ⟨800, 50, 0, 10, 0, 800⟩ ⟨none, none, none, none, none, 0, false⟩).start
      = some 800 ∧
    (calculateScrollBounds ⟨some "top top", some "+=200", false⟩
        ⟨800, 50, 0, 10, 0, 800⟩ ⟨none, none, none, none, none, 0, false⟩).«end»
      = some 1000 ∧
    (calculateScrollBounds ⟨some "top top", some "+=50%", false⟩
        ⟨800, 50, 0, 10, 0, 800⟩ ⟨none, none, none, none, none, 0, false⟩).«end»
      = some 1200 := by
  have hstart : (calculateScrollBounds ⟨some "top top", some "+=200", false⟩
      ⟨800, 50, 0, 10, 0, 800⟩
      ⟨none, none, none, none, none, 0, false⟩).start = some 800 := by
    rw [calc_start]
    simp [parsePos, splitOnSpace, measuredRect, orDefaultSpec]
  have hstart2 : (calculateScrollBounds ⟨some "top top", some "+=50%", false⟩
      ⟨800, 50, 0, 10, 0, 800⟩
      ⟨none, none, none, none, none, 0, false⟩).start = some 800 := by
    rw [calc_start]
    simp [parsePos, splitOnSpace, measuredRect, orDefaultSpec]
  refine ⟨hstart, ?_, ?_⟩
  · rw [claim5_relative_end.1 _ _ _ "+=200" 200 rfl (by decide) (by decide)
      (by simp [parseFloatJS, digitsToNat, fracValue]), hstart]
    simp
    norm_num
  · rw [claim5_relative_end.2.1 _ _ _ "+=50%" 50 rfl (by decide) (by decide)
      (by simp [parseFloatJS, digitsToNat, fracValue]), hstart2]
    simp
    norm_num

/-- C5 counterexample: the spec `end: "-=200"` resolves to `NaN` (no
bound), not to `start − 200 = 600`: `"-="` deltas are not supported. -/
theorem claim5_counterexample :
    (calculateScrollBounds ⟨some "top top", some "-=200", false⟩
        ⟨800, 50, 0, 10, 0, 800⟩ ⟨none, none, none, none, none, 0, false⟩).«end»
      = none ∧
    (calculateScrollBounds ⟨some "top top", some "-=200", false⟩
        ⟨800, 50, 0, 10, 0, 800⟩ ⟨none, none, none, none, none, 0, false⟩).start
      = some 800 ∧
    ¬(none : Option ℚ) = some (800 - 200) := by
  refine ⟨by decide, ?_, by simp⟩
  rw [calc_start]
  simp [parsePos, splitOnSpace, measuredRect, orDefaultSpec]

/-! ## Claim C6 -/

/-- C6 (amended): a missing or empty (falsy) trigger-position spec falls
back to the defaults (`"top bottom"` for start, `"bottom top"` for end), and
resolution is total (never throws, `NaN` modelled as `none`); but a present
malformed spec does NOT fall back — it is parsed as-is and yields `NaN`
bounds. -/
theorem claim6_spec_fallback :
    (∀ (cfg : STConfig) (g : Geometry) (bs : BoundsState),
        cfg.start = none →
        (calculateScrollBounds cfg g bs).start =
          parsePos "top bottom" (measuredRect g bs) g.scrollY g.wh) ∧
    (∀ (cfg : STConfig) (g : Geometry) (bs : BoundsState),
        cfg.start = some "" →
        (calculateScrollBounds cfg g bs).start =
          parsePos "top bottom" (measuredRect g bs) g.scrollY g.wh) ∧
    (∀ (cfg : STConfig) (g : Geometry) (bs : BoundsState),
        cfg.«end» = none →
        (calculateScrollBounds cfg g bs).«end» =
          parsePos "bottom top" (measuredRect g bs) g.scrollY g.wh) ∧
    (∀ (cfg : STConfig) (g : Geometry) (bs : BoundsState),
        cfg.«end» = some "" →
        (calculateScrollBounds cfg g bs).«end» =
          parsePos "bottom top" (measuredRect g bs) g.scrollY g.wh) ∧
    (∀ (cfg : STConfig) (g : Geometry) (bs : BoundsState) (s : String),
        cfg.start = some s → s ≠ "" →
        (calculateScrollBounds cfg g bs).start =
          parsePos s (measuredRect g bs) g.scrollY g.wh) := by
  refine ⟨?_, ?_, ?_, ?_, ?_⟩
  · intro cfg g bs h
    rw [calc_start, h, orDefaultSpec_none]
  · intro cfg g bs h
    rw [calc_start, h, orDefaultSpec_empty]
  · intro cfg g bs h
    unfold calculateScrollBounds
    by_cases hp : cfg.pin <;> simp [hp, h]
  · intro cfg g bs h
    unfold calculateScrollBounds
    by_cases hp : cfg.pin <;>
      simp [hp, h, orDefaultSpec_empty, List.isPrefixOf]
  · intro cfg g bs s h hne
    rw [calc_start, h, orDefaultSpec_some s _ hne]

/-- C6 witness: a missing start spec resolves via the default
`"top bottom"` to `top + scrollY − viewportHeight = -700`. -/
theorem claim6_witness :
    (calculateScrollBounds ⟨none, none, false⟩ ⟨100, 50, 0, 10, 0, 800⟩
        ⟨none, none, none, none, none, 0, false⟩).start = some (-700) := by
  rw [claim6_spec_fallback.1 ⟨none, none, false⟩ ⟨100, 50, 0, 10, 0, 800⟩
    ⟨none, none, none, none, none, 0, false⟩ rfl]
  simp [parsePos, splitOnSpace, measuredRect]
  norm_num

/-- C6 counterexample: the malformed start spec `"oops bottom"` yields a
`NaN` start, while the claimed fallback default `"top bottom"` would give
`-700`: malformed specs do not fall back to the defaults. -/
theorem claim6_counterexample :
    (calculateScrollBounds ⟨some "oops bottom", none, false⟩
        ⟨100, 50, 0, 10, 0, 800⟩
        ⟨none, none, none, none, none, 0, false⟩).start = none ∧
    (calculateScrollBounds ⟨none, none, false⟩ ⟨100, 50, 0, 10, 0, 800⟩
        ⟨none, none, none, none, none, 0, false⟩).start = some (-700) := by
  constructor
  · decide
  · rw [calc_start]
    simp [parsePos, splitOnSpace, measuredRect, orDefaultSpec]
    norm_num

/-! ## Pin-step lemmas and claim C7 -/

lemma pinStep_isPinned (cfg : EvalCfg) (b : Bounds) (st : ScrollState)
    (sty : ElStyle) (y : ℚ) (hpin : cfg.pin = true) :
    (pinStep cfg b st sty y).2 = decide (b.pinStart ≤ y ∧ y ≤ b.pinEnd) := by
  by_cases hin : b.pinStart ≤ y ∧ y ≤ b.pinEnd <;>
    cases hp : st.isPinned <;>
    simp [pinStep, hpin, hin, hp]

lemma pinStep_nopin (cfg : EvalCfg) (b : Bounds) (st : ScrollState)
    (sty : ElStyle) (y : ℚ) (hpin : cfg.pin = false) :
    pinStep cfg b st sty y = (sty, st.isPinned) := by
  simp [pinStep, hpin]

lemma pinStep_unchanged (cfg : EvalCfg) (b : Bounds) (st : ScrollState)
    (sty : ElStyle) (y : ℚ)
    (h : (pinStep cfg b st sty y).2 = st.isPinned) :
    (pinStep cfg b st sty y).1 = sty := by
  by_cases hpin : cfg.pin = true
  · by_cases hin : b.pinStart ≤ y ∧ y ≤ b.pinEnd <;>
      cases hp : st.isPinned <;>
      simp [pinStep, hpin, hin, hp] at h ⊢
  · rw [pinStep_nopin cfg b st sty y (by simpa using hpin)]

lemma pinStep_style_pin (cfg : EvalCfg) (b : Bounds) (st : ScrollState)
    (sty : ElStyle) (y : ℚ) (hpin : cfg.pin = true)
    (hnp : st.isPinned = false) (hin : b.pinStart ≤ y ∧ y ≤ b.pinEnd) :
    (pinStep cfg b st sty y).1 =
      ⟨"fixed", b.pinTop, b.pinLeft, .px b.pinWidth⟩ := by
  simp [pinStep, hpin, hin, hnp]

lemma pinStep_style_unpin (cfg : EvalCfg) (b : Bounds) (st : ScrollState)
    (sty : ElStyle) (y : ℚ) (hpin : cfg.pin = true)
    (hp : st.isPinned = true) (hout : ¬(b.pinStart ≤ y ∧ y ≤ b.pinEnd)) :
    (pinStep cfg b st sty y).1 =
      { sty with
        position := "absolute"
        left := 0
        top := if y < b.pinStart then 0 else b.pinEnd - b.pinStart } := by
  simp [pinStep, hpin, hout, hp]

/-- Invariant run lemma for pinned elements: along any run that starts
unpinned with absolute positioning, every evaluation leaves the position
`"fixed"` exactly when the evaluated scroll position is inside
`[pinStart, pinEnd]` (with `top = pinTop` there), and `"absolute"`
outside. -/
lemma pinRun_positions (cfg : EvalCfg) (duration : ℚ) (b : Bounds)
    (hpin : cfg.pin = true) :
    ∀ (ys : List ℚ) (st : ScrollState) (sty : ElStyle),
      (st.isPinned = true → sty.position = "fixed" ∧ sty.top = b.pinTop) →
      (st.isPinned = false → sty.position = "absolute") →
      ∀ o ∈ runSteps cfg duration b st sty ys,
        (o.style.position = "fixed" ↔
          (b.pinStart ≤ o.atY ∧ o.atY ≤ b.pinEnd)) ∧
        (¬(b.pinStart ≤ o.atY ∧ o.atY ≤ b.pinEnd) →
          o.style.position = "absolute") ∧
        ((b.pinStart ≤ o.atY ∧ o.atY ≤ b.pinEnd) →
          o.style.top = b.pinTop) := by
  intro ys
  induction ys with
  | nil =>
    intro st sty _ _ o ho
    simp [runSteps] at ho
  | cons y ys ih =>
    intro st sty hInvT hInvF o ho
    rw [runSteps] at ho
    have hstyle := update_style cfg duration b st sty y
    have hatY := update_atY cfg duration b st sty y
    have hpinned := update_state_isPinned cfg duration b st sty y
    rcases List.mem_cons.mp ho with rfl | ho'
    · rw [hstyle, hatY]
      by_cases hin : b.pinStart ≤ y ∧ y ≤ b.pinEnd
      · cases hp : st.isPinned
        · rw [pinStep_style_pin cfg b st sty y hpin hp hin]
          exact ⟨by simp [hin], fun h => absurd hin h, fun _ => rfl⟩
        · rw [pinStep_unchanged cfg b st sty y
            (by rw [pinStep_isPinned cfg b st sty y hpin, hp]; simp [hin])]
          rcases hInvT hp with ⟨h1, h2⟩
          exact ⟨by simp [hin, h1], fun h => absurd hin h, fun _ => h2⟩
      · cases hp : st.isPinned
        · rw [pinStep_unchanged cfg b st sty y
            (by rw [pinStep_isPinned cfg b st sty y hpin, hp]; simp [hin])]
          have h1 := hInvF hp
          refine ⟨?_, fun _ => h1, fun h => absurd h hin⟩
          rw [h1]
          simp [hin]
        · rw [pinStep_style_unpin cfg b st sty y hpin hp hin]
          exact ⟨by simp [hin], fun _ => rfl, fun h => absurd h hin⟩
    · refine ih _ _ ?_ ?_ o ho'
      · intro hP
        rw [hpinned, pinStep_isPinned cfg b st sty y hpin] at hP
        have hin : b.pinStart ≤ y ∧ y ≤ b.pinEnd := of_decide_eq_true hP
        rw [hstyle]
        cases hp : st.isPinned
        · rw [pinStep_style_pin cfg b st sty y hpin hp hin]
          exact ⟨rfl, rfl⟩
        · rw [pinStep_unchanged cfg b st sty y
            (by rw [pinStep_isPinned cfg b st sty y hpin, hp]; simp [hin])]
          exact hInvT hp
      · intro hP
        rw [hpinned, pinStep_isPinned cfg b st sty y hpin] at hP
        have hin : ¬(b.pinStart ≤ y ∧ y ≤ b.pinEnd) :=
          of_decide_eq_false hP
        rw [hstyle]
        cases hp : st.isPinned
        · rw [pinStep_unchanged cfg b st sty y
            (by rw [pinStep_isPinned cfg b st sty y hpin, hp]; simp [hin])]
          exact hInvF hp
        · rw [pinStep_style_unpin cfg b st sty y hpin hp hin]

/-- C7 (amended): with pinning enabled, the pinned flag after every
evaluation is exactly `pinStart ≤ y ≤ pinEnd`; the style is mutated only
when the flag changes; pinning writes
`fixed / pinTop / pinLeft / pinWidth`; UN-pinning writes `absolute`,
`left 0` and `top = 0` (above) or `pinEnd − pinStart` (below); and along
any run from registration the position is `fixed` exactly inside the pin
range (with `top = pinTop`) and `absolute` outside.  (The original claim's
unconditional top values fail: outside the range the `top` value persists
from the last flag change — e.g. it stays `0` from spacer creation when the
range was never entered; see the counterexample.) -/
theorem claim7_pin_machine :
    (∀ (cfg : EvalCfg) (duration : ℚ) (b : Bounds) (st : ScrollState)
        (sty : ElStyle) (y : ℚ), cfg.pin = true →
        (updateScrollAnimations cfg duration b st sty y).state.isPinned =
          decide (b.pinStart ≤ y ∧ y ≤ b.pinEnd)) ∧
    (∀ (cfg : EvalCfg) (duration : ℚ) (b : Bounds) (st : ScrollState)
        (sty : ElStyle) (y : ℚ),
        (updateScrollAnimations cfg duration b st sty y).state.isPinned =
          st.isPinned →
        (updateScrollAnimations cfg duration b st sty y).style = sty) ∧
    (∀ (cfg : EvalCfg) (duration : ℚ) (b : Bounds) (st : ScrollState)
        (sty : ElStyle) (y : ℚ), cfg.pin = true → st.isPinned = false →
        b.pinStart ≤ y ∧ y ≤ b.pinEnd →
        (updateScrollAnimations cfg duration b st sty y).style =
          ⟨"fixed", b.pinTop, b.pinLeft, .px b.pinWidth⟩) ∧
    (∀ (cfg : EvalCfg) (duration : ℚ) (b : Bounds) (st : ScrollState)
        (sty : ElStyle) (y : ℚ), cfg.pin = true → st.isPinned = true →
        ¬(b.pinStart ≤ y ∧ y ≤ b.pinEnd) →
        (updateScrollAnimations cfg duration b st sty y).style =
          { sty with
            position := "absolute"
            left := 0
            top := if y < b.pinStart then 0 else b.pinEnd - b.pinStart }) ∧
    (∀ (cfg : EvalCfg) (duration : ℚ) (b : Bounds) (ys : List ℚ)
        (sty : ElStyle), cfg.pin = true → sty.position = "absolute" →
        ∀ o ∈ runSteps cfg duration b initialScrollState sty ys,
          (o.style.position = "fixed" ↔
            (b.pinStart ≤ o.atY ∧ o.atY ≤ b.pinEnd)) ∧
          (¬(b.pinStart ≤ o.atY ∧ o.atY ≤ b.pinEnd) →
            o.style.position = "absolute") ∧
          ((b.pinStart ≤ o.atY ∧ o.atY ≤ b.pinEnd) →
            o.style.top = b.pinTop)) := by
  refine ⟨?_, ?_, ?_, ?_, ?_⟩
  · intro cfg duration b st sty y hpin
    rw [update_state_isPinned, pinStep_isPinned cfg b st sty y hpin]
  · intro cfg duration b st sty y h
    rw [update_state_isPinned] at h
    rw [update_style, pinStep_unchanged cfg b st sty y h]
  · intro cfg duration b st sty y hpin hnp hin
    rw [update_style, pinStep_style_pin cfg b st sty y hpin hnp hin]
  · intro cfg duration b st sty y hpin hp hout
    rw [update_style, pinStep_style_unpin cfg b st sty y hpin hp hout]
  · intro cfg duration b ys sty hpin habs
    exact pinRun_positions cfg duration b hpin ys initialScrollState sty
      (fun h => absurd h (by simp [initialScrollState])) (fun _ => habs)

/-- C7 witness: entering the pin range writes the fixed style at
`pinTop/pinLeft/pinWidth`; leaving it below writes absolute with
`top = pinEnd − pinStart = 200`. -/
theorem claim7_witness :
    (updateScrollAnimations ⟨false, true, none⟩ 0 ⟨100, 300, 100, 300, 7, 3, 50⟩
        initialScrollState pinnedInitialStyle 200).style =
      ⟨"fixed", 7, 3, .px 50⟩ ∧
    (updateScrollAnimations ⟨false, true, none⟩ 0 ⟨100, 300, 100, 300, 7, 3, 50⟩
        { isActive := true, progress := 1/2, direction := 1,
          lastY := some 200, isPinned := true }
        ⟨"fixed", 7, 3, .px 50⟩ 400).style =
      ⟨"absolute", 200, 0, .px 50⟩ := by
  constructor
  · exact claim7_pin_machine.2.2.1 ⟨false, true, none⟩ 0
      ⟨100, 300, 100, 300, 7, 3, 50⟩ initialScrollState pinnedInitialStyle 200
      rfl rfl (by norm_num)
  · rw [claim7_pin_machine.2.2.2.1 ⟨false, true, none⟩ 0
      ⟨100, 300, 100, 300, 7, 3, 50⟩ _ _ 400 rfl rfl (by norm_num)]
    norm_num

/-- C7 counterexample: a pinned element first evaluated at `y = 400` (below
`pinEnd = 300`, never having been pinned) keeps the spacer-creation style:
position is `absolute` but `top` is `0`, not the claimed
`pinEnd − pinStart = 200`. -/
theorem claim7_counterexample :
    (runState ⟨false, true, none⟩ 0 ⟨100, 300, 100, 300, 7, 3, 50⟩
        initialScrollState pinnedInitialStyle [400]).2.position =
      "absolute" ∧
    (runState ⟨false, true, none⟩ 0 ⟨100, 300, 100, 300, 7, 3, 50⟩
        initialScrollState pinnedInitialStyle [400]).2.top = 0 ∧
    (300 : ℚ) - 100 ≠ 0 := by
  refine ⟨rfl, rfl, by norm_num⟩

/-! ## Run lemmas for claim C1 -/

lemma runSteps_nil (cfg : EvalCfg) (d : ℚ) (b : Bounds) (st : ScrollState)
    (sty : ElStyle) : runSteps cfg d b st sty [] = [] := rfl

lemma runSteps_cons (cfg : EvalCfg) (d : ℚ) (b : Bounds) (st : ScrollState)
    (sty : ElStyle) (y : ℚ) (ys : List ℚ) :
    runSteps cfg d b st sty (y :: ys) =
      updateScrollAnimations cfg d b st sty y ::
        runSteps cfg d b (updateScrollAnimations cfg d b st sty y).state
          (updateScrollAnimations cfg d b st sty y).style ys := rfl

lemma runState_nil (cfg : EvalCfg) (d : ℚ) (b : Bounds) (st : ScrollState)
    (sty : ElStyle) : runState cfg d b st sty [] = (st, sty) := rfl

lemma runState_cons (cfg : EvalCfg) (d : ℚ) (b : Bounds) (st : ScrollState)
    (sty : ElStyle) (y : ℚ) (ys : List ℚ) :
    runState cfg d b st sty (y :: ys) =
      runState cfg d b (updateScrollAnimations cfg d b st sty y).state
        (updateScrollAnimations cfg d b st sty y).style ys := rfl

lemma runSteps_append (cfg : EvalCfg) (d : ℚ) (b : Bounds) :
    ∀ (l₁ l₂ : List ℚ) (st : ScrollState) (sty : ElStyle),
      runSteps cfg d b st sty (l₁ ++ l₂) =
        runSteps cfg d b st sty l₁ ++
          runSteps cfg d b (runState cfg d b st sty l₁).1
            (runState cfg d b st sty l₁).2 l₂ := by
  intro l₁
  induction l₁ with
  | nil => intro l₂ st sty; rfl
  | cons y ys ih =>
    intro l₂ st sty
    simp only [List.cons_append, runSteps_cons, runState_cons, ih,
      List.cons_inj_right]

lemma runState_append (cfg : EvalCfg) (d : ℚ) (b : Bounds) :
    ∀ (l₁ l₂ : List ℚ) (st : ScrollState) (sty : ElStyle),
      runState cfg d b st sty (l₁ ++ l₂) =
        runState cfg d b (runState cfg d b st sty l₁).1
          (runState cfg d b st sty l₁).2 l₂ := by
  intro l₁
  induction l₁ with
  | nil => intro l₂ st sty; rfl
  | cons y ys ih =>
    intro l₂ st sty
    simp only [List.cons_append, runState_cons, ih]

/-- A run's final `lastY` is the last evaluated position (or the incoming
one for an empty run). -/
lemma runState_lastY (cfg : EvalCfg) (d : ℚ) (b : Bounds) :
    ∀ (ys : List ℚ) (st : ScrollState) (sty : ElStyle),
      (runState cfg d b st sty ys).1.lastY =
        match ys.getLast? with
        | none => st.lastY
        | some l => some l := by
  intro ys
  induction ys with
  | nil => intro st sty; rfl
  | cons y ys ih =>
    intro st sty
    cases ys with
    | nil =>
      rw [runState_cons, runState_nil]
      simp [update_state_lastY]
    | cons z zs =>
      rw [runState_cons, ih, List.getLast?_cons_cons,
        List.getLast?_eq_getLast (z :: zs) (by simp)]

lemma mem_of_getLast_eq {α : Type} :
    ∀ (l : List α) (a : α), l.getLast? = some a → a ∈ l := by
  intro l
  induction l with
  | nil => intro a h; simp at h
  | cons y ys ih =>
    intro a h
    cases ys with
    | nil =>
      simp at h
      simp [h]
    | cons z zs =>
      rw [List.getLast?_cons_cons] at h
      exact List.mem_cons_of_mem _ (ih a h)

/-! ### Single-step transition characterization -/

lemma step_inactive_out (cfg : EvalCfg) (d : ℚ) (b : Bounds)
    (st : ScrollState) (sty : ElStyle) (y : ℚ) (hst : st.isActive = false)
    (hout : isActiveAt b y = false) :
    (updateScrollAnimations cfg d b st sty y).firedEnter = false ∧
    (updateScrollAnimations cfg d b st sty y).firedLeave = false ∧
    (updateScrollAnimations cfg d b st sty y).firedLeaveBack = false ∧
    (updateScrollAnimations cfg d b st sty y).state.isActive = false := by
  refine ⟨?_, ?_, ?_, ?_⟩ <;>
    simp [update_firedEnter, update_firedLeave, update_firedLeaveBack,
      update_state_isActive, hst, hout]

lemma step_enterFire (cfg : EvalCfg) (d : ℚ) (b : Bounds)
    (st : ScrollState) (sty : ElStyle) (y : ℚ) (hst : st.isActive = false)
    (hin : isActiveAt b y = true) :
    (updateScrollAnimations cfg d b st sty y).firedEnter = true ∧
    (updateScrollAnimations cfg d b st sty y).firedLeave = false ∧
    (updateScrollAnimations cfg d b st sty y).firedLeaveBack = false ∧
    (updateScrollAnimations cfg d b st sty y).state.isActive = true := by
  refine ⟨?_, ?_, ?_, ?_⟩ <;>
    simp [update_firedEnter, update_firedLeave, update_firedLeaveBack,
      update_state_isActive, hst, hin]

lemma step_active_stay (cfg : EvalCfg) (d : ℚ) (b : Bounds)
    (st : ScrollState) (sty : ElStyle) (y : ℚ) (hst : st.isActive = true)
    (hin : isActiveAt b y = true) :
    (updateScrollAnimations cfg d b st sty y).firedEnter = false ∧
    (updateScrollAnimations cfg d b st sty y).firedLeave = false ∧
    (updateScrollAnimations cfg d b st sty y).firedLeaveBack = false ∧
    (updateScrollAnimations cfg d b st sty y).state.isActive = true := by
  refine ⟨?_, ?_, ?_, ?_⟩ <;>
    simp [update_firedEnter, update_firedLeave, update_firedLeaveBack,
      update_state_isActive, hst, hin]

lemma step_leaveFire (cfg : EvalCfg) (d : ℚ) (b : Bounds)
    (st : ScrollState) (sty : ElStyle) (y l : ℚ) (hst : st.isActive = true)
    (hl : st.lastY = some l) (h0 : 0 < l) (hlt : l < y)
    (hout : isActiveAt b y = false) :
    (updateScrollAnimations cfg d b st sty y).firedEnter = false ∧
    (updateScrollAnimations cfg d b st sty y).firedLeave = true ∧
    (updateScrollAnimations cfg d b st sty y).firedLeaveBack = false ∧
    (updateScrollAnimations cfg d b st sty y).state.isActive = false := by
  have hdir : jsDirection st y = 1 :=
    jsDirection_some_gt st y l hl (ne_of_gt h0) hlt
  refine ⟨?_, ?_, ?_, ?_⟩ <;>
    simp [update_firedEnter, update_firedLeave, update_firedLeaveBack,
      update_state_isActive, hst, hout, hdir]

/-! ### Phase counting lemmas -/

lemma run_inactive_counts (cfg : EvalCfg) (d : ℚ) (b : Bounds) :
    ∀ (ys : List ℚ) (st : ScrollState) (sty : ElStyle),
      st.isActive = false → (∀ y ∈ ys, isActiveAt b y = false) →
      (runSteps cfg d b st sty ys).countP (·.firedEnter) = 0 ∧
      (runSteps cfg d b st sty ys).countP (·.firedLeave) = 0 ∧
      (runSteps cfg d b st sty ys).countP (·.firedLeaveBack) = 0 ∧
      (runState cfg d b st sty ys).1.isActive = false := by
  intro ys
  induction ys with
  | nil => intro st sty h _; exact ⟨rfl, rfl, rfl, h⟩
  | cons y ys ih =>
    intro st sty hst hall
    obtain ⟨h1, h2, h3, h4⟩ :=
      step_inactive_out cfg d b st sty y hst (hall y (by simp))
    obtain ⟨c1, c2, c3, c4⟩ :=
      ih (updateScrollAnimations cfg d b st sty y).state
        (updateScrollAnimations cfg d b st sty y).style h4
        (fun z hz => hall z (by simp [hz]))
    refine ⟨?_, ?_, ?_, ?_⟩ <;>
      simp [runSteps_cons, runState_cons, List.countP_cons, h1, h2, h3,
        c1, c2, c3, c4]

lemma run_active_counts (cfg : EvalCfg) (d : ℚ) (b : Bounds) :
    ∀ (ys : List ℚ) (st : ScrollState) (sty : ElStyle),
      st.isActive = true → (∀ y ∈ ys, isActiveAt b y = true) →
      (runSteps cfg d b st sty ys).countP (·.firedEnter) = 0 ∧
      (runSteps cfg d b st sty ys).countP (·.firedLeave) = 0 ∧
      (runSteps cfg d b st sty ys).countP (·.firedLeaveBack) = 0 ∧
      (runState cfg d b st sty ys).1.isActive = true := by
  intro ys
  induction ys with
  | nil => intro st sty h _; exact ⟨rfl, rfl, rfl, h⟩
  | cons y ys ih =>
    intro st sty hst hall
    obtain ⟨h1, h2, h3, h4⟩ :=
      step_active_stay cfg d b st sty y hst (hall y (by simp))
    obtain ⟨c1, c2, c3, c4⟩ :=
      ih (updateScrollAnimations cfg d b st sty y).state
        (updateScrollAnimations cfg d b st sty y).style h4
        (fun z hz => hall z (by simp [hz]))
    refine ⟨?_, ?_, ?_, ?_⟩ <;>
      simp [runSteps_cons, runState_cons, List.countP_cons, h1, h2, h3,
        c1, c2, c3, c4]

/-! ### Sorted-run decomposition -/

lemma sorted_three_split (s e : ℚ) :
    ∀ ys : List ℚ, ys.Sorted (· ≤ ·) →
      ∃ A B C : List ℚ, ys = A ++ B ++ C ∧ (∀ y ∈ A, y < s) ∧
        (∀ y ∈ B, s ≤ y ∧ y ≤ e) ∧ (∀ y ∈ C, e < y) := by
  intro ys
  induction ys with
  | nil => exact fun _ => ⟨[], [], [], rfl, by simp, by simp, by simp⟩
  | cons y ys ih =>
    intro hsort
    have hle : ∀ z ∈ ys, y ≤ z := (List.sorted_cons.mp hsort).1
    obtain ⟨A, B, C, hys, hA, hB, hC⟩ := ih (List.sorted_cons.mp hsort).2
    by_cases h1 : y < s
    · refine ⟨y :: A, B, C, by simp [hys], ?_, hB, hC⟩
      intro z hz
      rcases List.mem_cons.mp hz with rfl | hz'
      · exact h1
      · exact hA z hz'
    · by_cases h2 : y ≤ e
      · have hA0 : A = [] := by
          cases A with
          | nil => rfl
          | cons a as =>
            exfalso
            have ha : a ∈ ys := by rw [hys]; simp
            have hya : y ≤ a := hle a ha
            have has : a < s := hA a (by simp)
            exact h1 (lt_of_le_of_lt hya has)
        subst hA0
        refine ⟨[], y :: B, C, by simpa using hys, by simp, ?_, hC⟩
        intro z hz
        rcases List.mem_cons.mp hz with rfl | hz'
        · exact ⟨not_lt.mp h1, h2⟩
        · exact hB z hz'
      · have hA0 : A = [] := by
          cases A with
          | nil => rfl
          | cons a as =>
            exfalso
            have ha : a ∈ ys := by rw [hys]; simp
            have hya : y ≤ a := hle a ha
            have has : a < s := hA a (by simp)
            exact h1 (lt_of_le_of_lt hya has)
        have hB0 : B = [] := by
          cases B with
          | nil => rfl
          | cons p ps =>
            exfalso
            have hp : p ∈ ys := by rw [hys, hA0]; simp
            have hyp : y ≤ p := hle p hp
            have hpe : p ≤ e := (hB p (by simp)).2
            exact h2 (le_trans hyp hpe)
        subst hA0
        subst hB0
        refine ⟨[], [], y :: C, by simpa using hys, by simp, by simp, ?_⟩
        intro z hz
        rcases List.mem_cons.mp hz with rfl | hz'
        · exact not_le.mp h2
        · exact hC z hz'

lemma isActiveAt_100_300 (b : Bounds) (hs : b.start = 100)
    (he : b.«end» = 300) (y : ℚ) :
    isActiveAt b y = decide (100 ≤ y ∧ y ≤ 300) := by
  rw [isActiveAt, hs, he]

/-- The monotone-run counting lemma behind C1: a sorted evaluation sequence
that samples the active zone `[100, 300]` and ends past it fires `onEnter`
exactly once, `onLeave` exactly once and `onLeaveBack` never. -/
lemma monotone_zone_counts (cfg : EvalCfg) (d : ℚ) (b : Bounds)
    (sty : ElStyle) (hs : b.start = 100) (he : b.«end» = 300) :
    ∀ ys : List ℚ, ys.Sorted (· ≤ ·) →
      (∃ y ∈ ys, 100 ≤ y ∧ y ≤ 300) → (∃ y ∈ ys, 300 < y) →
      enterCount cfg d b initialScrollState sty ys = 1 ∧
      leaveCount cfg d b initialScrollState sty ys = 1 ∧
      leaveBackCount cfg d b initialScrollState sty ys = 0 := by
  intro ys hsort hin hout
  obtain ⟨A, B, C, hys, hA, hB, hC⟩ := sorted_three_split 100 300 ys hsort
  have hAf : ∀ y ∈ A, isActiveAt b y = false := by
    intro y hy
    rw [isActiveAt_100_300 b hs he]
    have h := hA y hy
    simp only [decide_eq_false_iff_not, not_and, not_le]
    intro h'
    linarith
  have hBt : ∀ y ∈ B, isActiveAt b y = true := by
    intro y hy
    rw [isActiveAt_100_300 b hs he]
    have h := hB y hy
    simp [h.1, h.2]
  have hCf : ∀ y ∈ C, isActiveAt b y = false := by
    intro y hy
    rw [isActiveAt_100_300 b hs he]
    have h := hC y hy
    simp only [decide_eq_false_iff_not, not_and, not_le]
    intro h'
    linarith
  have hBne : B ≠ [] := by
    obtain ⟨y, hy, hy1, hy2⟩ := hin
    intro hB0
    rw [hys, hB0] at hy
    simp at hy
    rcases hy with h | h
    · have := hA y h
      linarith
    · have := hC y h
      linarith
  have hCne : C ≠ [] := by
    obtain ⟨y, hy, hy1⟩ := hout
    intro hC0
    rw [hys, hC0] at hy
    simp at hy
    rcases hy with h | h
    · have := hA y h
      linarith
    · have := (hB y h).2
      linarith
  obtain ⟨b₀, B₁, rfl⟩ : ∃ b₀ B₁, B = b₀ :: B₁ := by
    cases B with
    | nil => exact absurd rfl hBne
    | cons p ps => exact ⟨p, ps, rfl⟩
  obtain ⟨c₀, C₁, rfl⟩ : ∃ c₀ C₁, C = c₀ :: C₁ := by
    cases C with
    | nil => exact absurd rfl hCne
    | cons p ps => exact ⟨p, ps, rfl⟩
  -- Phase A: before the zone, inactive throughout.
  obtain ⟨a1, a2, a3, a4⟩ :=
    run_inactive_counts cfg d b A initialScrollState sty rfl hAf
  set stA := (runState cfg d b initialScrollState sty A).1 with hstA
  set styA := (runState cfg d b initialScrollState sty A).2 with hstyA
  -- the entering evaluation at b₀
  have hin0 : isActiveAt b b₀ = true := hBt b₀ (by simp)
  obtain ⟨e1, e2, e3, e4⟩ := step_enterFire cfg d b stA styA b₀ a4 hin0
  set o₀ := updateScrollAnimations cfg d b stA styA b₀ with ho₀
  -- Phase B₁: inside the zone, active throughout.
  obtain ⟨b1, b2, b3, b4⟩ :=
    run_active_counts cfg d b B₁ o₀.state o₀.style e4
      (fun z hz => hBt z (by simp [hz]))
  set stB := (runState cfg d b o₀.state o₀.style B₁).1 with hstB
  set styB := (runState cfg d b o₀.state o₀.style B₁).2 with hstyB
  -- the last position recorded before leaving lies in the zone
  obtain ⟨l, hlEq, hl1, hl2⟩ :
      ∃ l, stB.lastY = some l ∧ 100 ≤ l ∧ l ≤ 300 := by
    rw [hstB, runState_lastY]
    cases hgl : B₁.getLast? with
    | none =>
      refine ⟨b₀, ?_, (hB b₀ (by simp)).1, (hB b₀ (by simp)).2⟩
      rw [ho₀, update_state_lastY]
    | some l =>
      have hlB : l ∈ B₁ := mem_of_getLast_eq B₁ l hgl
      exact ⟨l, rfl, (hB l (by simp [hlB])).1, (hB l (by simp [hlB])).2⟩
  -- the leaving evaluation at c₀
  have hout0 : isActiveAt b c₀ = false := hCf c₀ (by simp)
  have hc₀ : 300 < c₀ := hC c₀ (by simp)
  obtain ⟨l1, l2, l3, l4⟩ :=
    step_leaveFire cfg d b stB styB c₀ l b4 hlEq (by linarith)
      (by linarith) hout0
  set o₁ := updateScrollAnimations cfg d b stB styB c₀ with ho₁
  -- Phase C₁: after the zone, inactive throughout.
  obtain ⟨d1, d2, d3, _⟩ :=
    run_inactive_counts cfg d b C₁ o₁.state o₁.style l4
      (fun z hz => hCf z (by simp [hz]))
  refine ⟨?_, ?_, ?_⟩
  · unfold enterCount
    rw [hys, List.append_assoc, runSteps_append, List.countP_append,
      List.cons_append, runSteps_cons, List.countP_cons, runSteps_append,
      List.countP_append, runSteps_cons, List.countP_cons,
      ← hstA, ← hstyA, ← ho₀, ← hstB, ← hstyB, ← ho₁]
    simp [a1, e1, b1, l1, d1]
  · unfold leaveCount
    rw [hys, List.append_assoc, runSteps_append, List.countP_append,
      List.cons_append, runSteps_cons, List.countP_cons, runSteps_append,
      List.countP_append, runSteps_cons, List.countP_cons,
      ← hstA, ← hstyA, ← ho₀, ← hstB, ← hstyB, ← ho₁]
    simp [a2, e2, b2, l2, d2]
  · unfold leaveBackCount
    rw [hys, List.append_assoc, runSteps_append, List.countP_append,
      List.cons_append, runSteps_cons, List.countP_cons, runSteps_append,
      List.countP_append, runSteps_cons, List.countP_cons,
      ← hstA, ← hstyA, ← ho₀, ← hstB, ← hstyB, ← ho₁]
    simp [a3, e3, b3, l3, d3]

/-! ## Claim C1 -/

/-- C1 (amended): per evaluation, `onEnter` fires iff activation flips off→on,
`onLeave` iff it flips on→off with the computed direction `1`, `onLeaveBack`
iff it flips on→off with direction `-1`; and a monotone run over
`start = 100, end = 300` that samples the active zone at least once and ends
past `end` fires `onEnter` exactly once and `onLeave` exactly once, with no
`onLeaveBack` and no duplicate fires.  (The original claim fails for
monotone runs whose evaluations skip the zone entirely — for example
evaluations at `0` then `350` fire nothing; hence the added sampling
hypothesis.) -/
theorem claim1_transitions :
    (∀ (cfg : EvalCfg) (duration : ℚ) (b : Bounds) (st : ScrollState)
        (sty : ElStyle) (y : ℚ),
        ((updateScrollAnimations cfg duration b st sty y).firedEnter = true ↔
          (isActiveAt b y = true ∧ st.isActive = false)) ∧
        ((updateScrollAnimations cfg duration b st sty y).firedLeave = true ↔
          (isActiveAt b y = false ∧ st.isActive = true ∧
            jsDirection st y = 1)) ∧
        ((updateScrollAnimations cfg duration b st sty y).firedLeaveBack =
            true ↔
          (isActiveAt b y = false ∧ st.isActive = true ∧
            jsDirection st y = -1))) ∧
    (∀ (cfg : EvalCfg) (duration : ℚ) (b : Bounds) (sty : ElStyle)
        (ys : List ℚ), b.start = 100 → b.«end» = 300 →
        ys.Sorted (· ≤ ·) → (∃ y ∈ ys, 100 ≤ y ∧ y ≤ 300) →
        (∃ y ∈ ys, 300 < y) →
        enterCount cfg duration b initialScrollState sty ys = 1 ∧
        leaveCount cfg duration b initialScrollState sty ys = 1 ∧
        leaveBackCount cfg duration b initialScrollState sty ys = 0) := by
  constructor
  · intro cfg duration b st sty y
    refine ⟨?_, ?_, ?_⟩
    · rw [update_firedEnter]
      simp
    · rw [update_firedLeave]
      simp [and_assoc]
    · rw [update_firedLeaveBack]
      rcases jsDirection_cases st y with hd | hd <;> simp [hd, and_assoc]
  · intro cfg duration b sty ys hs he hsort hin hout
    exact monotone_zone_counts cfg duration b sty hs he ys hsort hin hout

/-- C1 witness: the monotone run `0, 150, 350` over `start = 100`,
`end = 300` fires `onEnter` once and `onLeave` once, `onLeaveBack` never. -/
theorem claim1_witness :
    enterCount ⟨false, false, none⟩ 0 ⟨100, 300, 0, 0, 0, 0, 0⟩
        initialScrollState pinnedInitialStyle [0, 150, 350] = 1 ∧
    leaveCount ⟨false, false, none⟩ 0 ⟨100, 300, 0, 0, 0, 0, 0⟩
        initialScrollState pinnedInitialStyle [0, 150, 350] = 1 ∧
    leaveBackCount ⟨false, false, none⟩ 0 ⟨100, 300, 0, 0, 0, 0, 0⟩
        initialScrollState pinnedInitialStyle [0, 150, 350] = 0 :=
  claim1_transitions.2 ⟨false, false, none⟩ 0 ⟨100, 300, 0, 0, 0, 0, 0⟩
    pinnedInitialStyle [0, 150, 350] rfl rfl (by decide)
    ⟨150, by decide, by decide⟩ ⟨350, by decide, by decide⟩

/-- C1 counterexample: the monotone run `0, 350` from `y = 0` past
`end = 300` skips the zone `[100, 300]` and fires neither `onEnter` nor
`onLeave`, refuting "fires onEnter exactly once and onLeave exactly
once". -/
theorem claim1_counterexample :
    List.Sorted (· ≤ ·) ([0, 350] : List ℚ) ∧
    (350 : ℚ) ∈ ([0, 350] : List ℚ) ∧ (300 : ℚ) < 350 ∧
    enterCount ⟨false, false, none⟩ 0 ⟨100, 300, 0, 0, 0, 0, 0⟩
        initialScrollState pinnedInitialStyle [0, 350] = 0 ∧
    leaveCount ⟨false, false, none⟩ 0 ⟨100, 300, 0, 0, 0, 0, 0⟩
        initialScrollState pinnedInitialStyle [0, 350] = 0 := by
  refine ⟨by decide, by decide, by norm_num, by decide, by decide⟩

end AnimeHelper
